import Mathlib

/-!
Shallow embedding of `src/can_wifi/can_wifi/tactile_signal_publisher.py`
(the tactile signal publisher node of `can2wifi_ros2`).

The node keeps three pieces of state: an integer mode (`self.__state`,
initially `0`), a bounded FIFO calibration queue
(`deque(maxlen=calibration_size)`) and a derived reference vector that is
recomputed from the queue on every recording cycle.  The per-cycle work of
`timer_callback` and the transition handler `change___statecallback` are
modelled below as pure functions on that state.  Byte payloads are lists of
naturals (each `< 256` in reality; the decoding logic does not depend on
that bound), samples are lists of naturals, and the floating-point
arithmetic of numpy (`np.average`, `np.mean`, `np.var`) is modelled
exactly over `ℚ`: every quantity the code compares (sums of at most 16
values below 2^17, divided by powers of two and small integers) is
exactly representable in IEEE double precision, so the rational model
decides the comparisons `mean <= THRESHOLD_MU` and
`var >= THRESHOLD_SIGMA**2` exactly as the float code does.
-/

/-- Module constant `THRESHOLD_MU = 1` (line 16). -/
def THRESHOLD_MU : ℚ := 1

/-- Module constant `THRESHOLD_SIGMA = 1` (line 17). -/
def THRESHOLD_SIGMA : ℚ := 1

/-- Dictionary `STATE_LIST` (lines 20-24), mapping the state keys 0, 1 and
99 to the names "calibration", "recording" and "termination"; modelled as
an association list, so that `STATE_LIST.keys()` is
`STATE_LIST.map Prod.fst`. -/
def STATE_LIST : List (ℤ × String) :=
  [(0, "calibration"), (1, "recording"), (99, "termination")]

/-- Payload decoding (lines 80-81):
`values = [int.from_bytes(data[i:i+2], "big", signed=False)
           for i in range(0, len(data), 2)]`.
`data[i:i+2]` is a two-byte slice except at the end of an odd-length
payload, where it is the single trailing byte; `int.from_bytes` of a
single byte is that byte. -/
def decodeValues : List ℕ → List ℕ
  | [] => []
  | [b] => [b]
  | b1 :: b2 :: rest => (b1 * 256 + b2) :: decodeValues rest

/-- Model of `deque(maxlen=cap).append`: appending to a full deque evicts the
oldest element; the length never exceeds `cap` (lines 65, 108). -/
def dequeAppend (cap : ℕ) (q : List (List ℕ)) (v : List ℕ) : List (List ℕ) :=
  (q ++ [v]).drop (q.length + 1 - cap)

/-- One calibration-mode cycle on the queue (lines 106-108):
`if len(values) == 16: self.__calibration_queue.append(values)`. -/
def observe (cap : ℕ) (q : List (List ℕ)) (v : List ℕ) : List (List ℕ) :=
  if v.length = 16 then dequeAppend cap q v else q

/-- Feeding a whole list of decoded samples through calibration cycles. -/
def feedAll (cap : ℕ) (q : List (List ℕ)) (l : List (List ℕ)) : List (List ℕ) :=
  l.foldl (observe cap) q

/-- Column `i` sum of the queue entries, as a rational. -/
def colSum (q : List (List ℕ)) (i : ℕ) : ℚ :=
  (q.map (fun s => ((s.getD i 0 : ℕ) : ℚ))).sum

/-- Model of `np.average(self.__calibration_queue, axis=0)` (lines 85-86): the
element-wise mean of the queued length-16 samples. -/
def referenceVec (q : List (List ℕ)) : List ℚ :=
  (List.range 16).map (fun i => colSum q i / (q.length : ℚ))

/-- Model of `astype(np.int32)` on a floating-point value: C-style truncation
toward zero.  On a reduced rational this is the truncated quotient of the
numerator by the denominator; `truncQ_eq` below checks that it agrees
with the mathematical truncation (floor for non-negative values, ceiling
for negative ones). -/
def truncQ (x : ℚ) : ℤ :=
  x.num.tdiv x.den

/-- Lines 92-93:
`data = np.array(values, dtype=np.int32) - self.__reference_value.astype(np.int32)`.
The reference is truncated to an integer, then subtracted element-wise. -/
def computeDelta (raw : List ℕ) (ref : List ℚ) : List ℤ :=
  (raw.zip ref).map (fun p => (p.1 : ℤ) - truncQ p.2)

/-- The delta computation as the spec sentence words it: the reference
element is rounded to the nearest integer before the subtraction.  Stated
only to be compared with `computeDelta`, which is what the code does. -/
def computeDeltaRounded (raw : List ℕ) (ref : List ℚ) : List ℤ :=
  (raw.zip ref).map (fun p => (p.1 : ℤ) - round p.2)

/-- Line 94: `data[data <= 3] = 0.0`. -/
def floorRule (delta : List ℤ) : List ℤ :=
  delta.map (fun d => if d ≤ 3 then 0 else d)

/-- Model of `np.mean` over the 16-element integer vector, exact over `ℚ`. -/
def meanQ (l : List ℤ) : ℚ :=
  (l.map (fun d => (Int.cast d : ℚ))).sum / (l.length : ℚ)

/-- Model of `np.var` (population variance, `ddof=0`) over the vector, exact over `ℚ`. -/
def varQ (l : List ℤ) : ℚ :=
  (l.map (fun d => ((Int.cast d : ℚ) - meanQ l) ^ 2)).sum / (l.length : ℚ)

/-- Lines 95-96: `if np.mean(data) <= THRESHOLD_MU and
np.var(data) >= THRESHOLD_SIGMA**2: data.fill(0)`. -/
def suppress (delta : List ℤ) : List ℤ :=
  if meanQ delta ≤ THRESHOLD_MU ∧ THRESHOLD_SIGMA ^ 2 ≤ varQ delta then
    delta.map (fun _ => 0)
  else delta

/-- The full recording-path computation of the published data vector
(lines 92-96): subtract the truncated reference, floor, then apply the
global suppression rule. -/
def processSignal (raw : List ℕ) (ref : List ℚ) : List ℤ :=
  suppress (floorRule (computeDelta raw ref))

/-- Observable outcome of one `timer_callback` invocation. -/
inductive CycleResult where
  /-- a `TactileSignal` message with this data vector was published -/
  | published (out : List ℤ)
  /-- calibration mode: no message, queue possibly extended -/
  | calibrated
  /-- case of `raise Exception("Calibration queue is not filled.")` -/
  | fatalError (msg : String)
  /-- state 99: the node destroys itself -/
  | terminated
  /-- unknown state: the callback falls through doing nothing -/
  | skipped
  deriving DecidableEq, Repr

/-- Model of `timer_callback` (lines 78-111) on mode `state`, calibration queue
`q` (capacity `cap`) and the received byte payload `data`; returns the
observable outcome and the queue afterwards.  The message metadata
(timestamp, sender address) comes from the environment and is not
modelled. -/
def timer_callback (cap : ℕ) (state : ℤ) (q : List (List ℕ)) (data : List ℕ) :
    CycleResult × List (List ℕ) :=
  let values := decodeValues data
  if state = 1 then
    if q.length = cap then
      (CycleResult.published (processSignal values (referenceVec q)), q)
    else
      (CycleResult.fatalError ("Calibration queue is not filled."), q)
  else if state = 0 then
    (CycleResult.calibrated, observe cap q values)
  else if state = 99 then
    (CycleResult.terminated, q)
  else
    (CycleResult.skipped, q)

/-- The `ChangeState` service response: `response.success` and `response.info`. -/
structure ChangeStateResponse where
  success : Bool
  info : String
  deriving DecidableEq, Repr

/-- Model of `change___statecallback` (lines 113-139) on the current mode and the
requested transition; returns the response and the mode afterwards.  A
request different from the current state is accepted when it is a key of
`STATE_LIST`; otherwise the raised exception is caught, failure is
reported and the state is reset to `0` (calibration). -/
def change___statecallback (state : ℤ) (transition : ℤ) :
    ChangeStateResponse × ℤ :=
  if transition ≠ state then
    if transition ∈ STATE_LIST.map Prod.fst then
      (⟨true, "OK"⟩, transition)
    else
      (⟨false, "Undefined state"⟩, 0)
  else
    (⟨true, "No transition needed!"⟩, state)

/-- The mode after a whole sequence of transition requests, starting from
the initial mode `self.__state = 0` (line 62). -/
def runTransitions (l : List ℤ) : ℤ :=
  l.foldl (fun s t => (change___statecallback s t).2) 0

/-! ### Sanity lemmas about the embedding -/

/-- Truncation check: `truncQ` is truncation toward zero, the behaviour of
`astype(np.int32)`: floor on non-negative rationals, ceiling on negative
ones. -/
theorem truncQ_eq (x : ℚ) : truncQ x = if 0 ≤ x then ⌊x⌋ else ⌈x⌉ := by
  unfold truncQ
  by_cases h : 0 ≤ x
  · rw [if_pos h, Rat.floor_def]
    exact Int.tdiv_eq_ediv (Rat.num_nonneg.mpr h) (Int.natCast_nonneg _)
  · rw [if_neg h]
    have hneg : 0 ≤ -x := neg_nonneg.mpr (le_of_not_le h)
    have h1 : x.num.tdiv x.den = -((-x).num.tdiv (-x).den) := by
      rw [Rat.num_neg_eq_neg_num, Rat.den_neg_eq_den, Int.neg_tdiv, neg_neg]
    rw [h1, Int.tdiv_eq_ediv (Rat.num_nonneg.mpr hneg) (Int.natCast_nonneg _),
      ← Rat.floor_def, Int.floor_neg, neg_neg]

/-- Value of `getD` on a replicated list at an in-range index. -/
theorem getD_replicate_of_lt {α : Type} (a d : α) {n i : ℕ} (h : i < n) :
    (List.replicate n a).getD i d = a := by
  simp [List.getD_eq_getElem?_getD, List.getElem?_replicate, h]

/-- Value of `truncQ` on a natural-number value: the value itself. -/
theorem truncQ_natCast (c : ℕ) : truncQ (c : ℚ) = (c : ℤ) := by
  unfold truncQ
  rw [Rat.num_natCast, Rat.den_natCast, Nat.cast_one, Int.tdiv_one]

/-- Column sums of a queue holding `k` copies of the constant sample. -/
theorem colSum_replicate (k c : ℕ) {i : ℕ} (h : i < 16) :
    colSum (List.replicate k (List.replicate 16 c)) i = (k : ℚ) * (c : ℚ) := by
  simp only [colSum, List.map_replicate]
  rw [getD_replicate_of_lt c 0 h, List.sum_replicate, nsmul_eq_mul]

/-- The reference vector of a queue holding `k > 0` copies of the constant
length-16 sample is that constant sample. -/
theorem referenceVec_replicate (k c : ℕ) (hk : k ≠ 0) :
    referenceVec (List.replicate k (List.replicate 16 c)) = List.replicate 16 (c : ℚ) := by
  unfold referenceVec
  have h : ∀ i ∈ List.range 16,
      colSum (List.replicate k (List.replicate 16 c)) i /
        ((List.replicate k (List.replicate 16 c)).length : ℚ) = (c : ℚ) := by
    intro i hi
    rw [List.length_replicate, colSum_replicate k c (List.mem_range.mp hi),
      mul_comm, mul_div_assoc, div_self (Nat.cast_ne_zero.mpr hk), mul_one]
  rw [List.map_congr_left h, List.map_const', List.length_range]

/-- Delta of the code on constant raw and reference vectors. -/
theorem computeDelta_replicate (r c : ℕ) :
    computeDelta (List.replicate 16 r) (List.replicate 16 (c : ℚ)) =
      List.replicate 16 ((r : ℤ) - (c : ℤ)) := by
  simp only [computeDelta, List.zip_replicate', List.map_replicate]
  rw [truncQ_natCast]

/-- The mean of a constant 16-element vector is its value. -/
theorem meanQ_replicate (d : ℤ) : meanQ (List.replicate 16 d) = (d : ℚ) := by
  unfold meanQ
  rw [List.map_replicate, List.sum_replicate, List.length_replicate, nsmul_eq_mul]
  push_cast
  ring

/-- The variance of a constant 16-element vector is zero. -/
theorem varQ_replicate (d : ℤ) : varQ (List.replicate 16 d) = 0 := by
  unfold varQ
  simp only [meanQ_replicate, List.map_replicate, sub_self]
  simp

/-- A constant 16-element vector is never globally suppressed: its
variance is `0 < THRESHOLD_SIGMA^2`. -/
theorem suppress_replicate (d : ℤ) :
    suppress (List.replicate 16 d) = List.replicate 16 d := by
  unfold suppress
  rw [if_neg]
  intro h
  have h2 := h.2
  rw [varQ_replicate] at h2
  norm_num [THRESHOLD_SIGMA] at h2

/-- The published vector for constant raw and reference inputs: only the
floor rule acts. -/
theorem processSignal_replicate (r c : ℕ) :
    processSignal (List.replicate 16 r) (List.replicate 16 (c : ℚ)) =
      List.replicate 16 (if (r : ℤ) - (c : ℤ) ≤ 3 then 0 else (r : ℤ) - (c : ℤ)) := by
  simp only [processSignal, floorRule]
  rw [computeDelta_replicate, List.map_replicate, suppress_replicate]

/-- A deque append never grows the queue beyond its capacity. -/
theorem dequeAppend_length_le (cap : ℕ) (q : List (List ℕ)) (v : List ℕ)
    (hq : q.length ≤ cap) : (dequeAppend cap q v).length ≤ cap := by
  simp only [dequeAppend, List.length_drop, List.length_append, List.length_cons,
    List.length_nil]
  omega

/-- Feeding length-16 samples through calibration cycles keeps exactly the
last `cap` observations (FIFO/ring-buffer eviction). -/
theorem feedAll_eq_drop (cap : ℕ) (l : List (List ℕ)) (h16 : ∀ v ∈ l, v.length = 16) :
    ∀ q : List (List ℕ), q.length ≤ cap →
      feedAll cap q l = (q ++ l).drop (q.length + l.length - cap) := by
  induction l with
  | nil =>
    intro q hq
    simp only [feedAll, List.foldl_nil, List.append_nil, List.length_nil, Nat.add_zero,
      Nat.sub_eq_zero_of_le hq, List.drop_zero]
  | cons v t ih =>
    intro q hq
    have hv : v.length = 16 := h16 v (by simp)
    have h16t : ∀ w ∈ t, w.length = 16 := fun w hw => h16 w (by simp [hw])
    have hq' : (dequeAppend cap q v).length ≤ cap := dequeAppend_length_le cap q v hq
    have step : feedAll cap q (v :: t) = feedAll cap (dequeAppend cap q v) t := by
      simp [feedAll, observe, hv]
    rw [step, ih h16t _ hq']
    simp only [dequeAppend, List.length_drop, List.length_append, List.length_cons,
      List.length_nil]
    rw [← List.drop_append_of_le_length
      (by simp only [List.length_append, List.length_cons, List.length_nil]; omega),
      List.drop_drop]
    rw [show (q ++ [v]) ++ t = q ++ v :: t by simp]
    congr 1
    omega

/-- Value of `getD` after the floor rule: the per-element floor applied pointwise. -/
theorem floorRule_getD (d : List ℤ) (i : ℕ) :
    (floorRule d).getD i 0 = if d.getD i 0 ≤ 3 then 0 else d.getD i 0 := by
  induction d generalizing i with
  | nil => simp [floorRule]
  | cons a t ih =>
    cases i with
    | zero => simp [floorRule]
    | succ n => simpa [floorRule] using ih n

/-- The number of decoded values is the ceiling of half the byte count. -/
theorem decodeValues_length : ∀ data : List ℕ,
    (decodeValues data).length = (data.length + 1) / 2
  | [] => by
    simp only [decodeValues, List.length_nil]
  | [_] => by
    simp only [decodeValues, List.length_cons, List.length_nil]
  | b1 :: b2 :: rest => by
    simp only [decodeValues, List.length_cons, decodeValues_length rest]
    omega

/-- Appending one byte to an even-length payload appends that value of that byte
to the decoded list: the trailing byte is decoded, not dropped. -/
theorem decodeValues_append_even : ∀ data : List ℕ, data.length % 2 = 0 →
    ∀ b : ℕ, decodeValues (data ++ [b]) = decodeValues data ++ [b]
  | [], _, b => by simp [decodeValues]
  | [_], h, _ => by
    simp only [List.length_cons, List.length_nil] at h
    omega
  | x :: y :: rest, h, b => by
    have hr : rest.length % 2 = 0 := by
      simp only [List.length_cons] at h
      omega
    simp [decodeValues, decodeValues_append_even rest hr b]

/-- Every element of a processed vector is `0` or at least `4`: the floor
rule zeroes everything `≤ 3` (negatives included) and the suppression rule
only zeroes. -/
theorem processSignal_mem (raw : List ℕ) (ref : List ℚ) :
    ∀ x ∈ processSignal raw ref, x = 0 ∨ 4 ≤ x := by
  intro x hx
  unfold processSignal suppress at hx
  by_cases h : meanQ (floorRule (computeDelta raw ref)) ≤ THRESHOLD_MU ∧
      THRESHOLD_SIGMA ^ 2 ≤ varQ (floorRule (computeDelta raw ref))
  · rw [if_pos h] at hx
    rcases List.mem_map.mp hx with ⟨a, _, rfl⟩
    exact Or.inl rfl
  · rw [if_neg h] at hx
    rcases List.mem_map.mp hx with ⟨a, _, rfl⟩
    by_cases ha : a ≤ 3
    · exact Or.inl (if_pos ha)
    · right
      rw [if_neg ha]
      omega

/-- The transition handler never leaves the set of defined states. -/
theorem change_state_closed (s t : ℤ) (hs : s ∈ STATE_LIST.map Prod.fst) :
    (change___statecallback s t).2 ∈ STATE_LIST.map Prod.fst := by
  by_cases hts : t = s
  · simpa [change___statecallback, hts] using hs
  · by_cases htl : t ∈ STATE_LIST.map Prod.fst
    · simp [change___statecallback, hts, htl]
    · have h0 : (change___statecallback s t).2 = 0 := by
        simp [change___statecallback, hts, htl]
      rw [h0]
      decide

/-- Concrete payload: 16 big-endian pairs `00 05` decode to `[5] * 16`. -/
theorem decode_bytes_five :
    decodeValues ((List.replicate 16 [0, 5]).flatten) = List.replicate 16 5 := by
  decide

/-- With a full all-zero calibration queue, the recording cycle on the
`[5] * 16` payload publishes `[5] * 16`. -/
theorem timer_publishes_five :
    (timer_callback 3 1 (List.replicate 3 (List.replicate 16 0))
        ((List.replicate 16 [0, 5]).flatten)).1 =
      CycleResult.published (List.replicate 16 5) := by
  have h1 : referenceVec (List.replicate 3 (List.replicate 16 0)) =
      List.replicate 16 ((0 : ℕ) : ℚ) := referenceVec_replicate 3 0 (by norm_num)
  have h2 : processSignal (List.replicate 16 5) (List.replicate 16 ((0 : ℕ) : ℚ)) =
      List.replicate 16 5 := by
    rw [processSignal_replicate]
    norm_num
  simp only [timer_callback, decode_bytes_five, List.length_replicate, h1, h2,
    if_pos, ite_true]

/-! ### Claim theorems -/

/-- Claim C1: after the per-element floor rule, if the mean of the
16-element delta vector is at most `THRESHOLD_MU = 1` and its variance is
at least `THRESHOLD_SIGMA^2 = 1` the whole vector is zeroed, otherwise it
is left unchanged; and for reference `[0] * 16` and raw `[5] * 16` the
published output is `[5] * 16` (no suppression, mean 5 > 1). -/
theorem suppression_rule_thm (d : List ℤ) :
    (meanQ d ≤ THRESHOLD_MU ∧ THRESHOLD_SIGMA ^ 2 ≤ varQ d →
      suppress d = List.replicate d.length 0) ∧
    (¬(meanQ d ≤ THRESHOLD_MU ∧ THRESHOLD_SIGMA ^ 2 ≤ varQ d) →
      suppress d = d) ∧
    processSignal (List.replicate 16 5) (List.replicate 16 (0 : ℚ)) =
      List.replicate 16 5 := by
  refine ⟨fun h => ?_, fun h => ?_, ?_⟩
  · unfold suppress
    rw [if_pos h, List.map_const']
  · unfold suppress
    rw [if_neg h]
  · have h := processSignal_replicate 5 0
    norm_num at h
    exact h

/-- Claim C1 witness: `[5] * 16` does not satisfy the suppression
condition (mean 5 > 1), so the vector passes unchanged. -/
theorem suppression_rule_witness :
    suppress (List.replicate 16 (5 : ℤ)) = List.replicate 16 (5 : ℤ) := by
  refine (suppression_rule_thm (List.replicate 16 5)).2.1 ?_
  rw [meanQ_replicate]
  norm_num [THRESHOLD_MU]

/-- Claim C2: feeding length-16 samples in calibration mode, once at least
capacity-many have been observed, the queue holds exactly the last
capacity-many samples (FIFO eviction) and the reference vector used by the
next recording cycle is their element-wise mean. -/
theorem calibration_reference_last_cap (cap : ℕ) (l : List (List ℕ))
    (h16 : ∀ v ∈ l, v.length = 16) (hge : cap ≤ l.length) :
    feedAll cap [] l = l.drop (l.length - cap) ∧
    referenceVec (feedAll cap [] l) = referenceVec (l.drop (l.length - cap)) := by
  have h := feedAll_eq_drop cap l h16 [] (by simp)
  simp only [List.nil_append, List.length_nil, Nat.zero_add] at h
  exact ⟨h, by rw [h]⟩

/-- Claim C2 witness: capacity 3 and inputs A, B, C, D fed in order leave
the queue `[B, C, D]`, so the reference is `mean(B, C, D)`, not
`mean(A, B, C)`. -/
theorem calibration_reference_witness :
    feedAll 3 []
        [List.replicate 16 1, List.replicate 16 2, List.replicate 16 4, List.replicate 16 6] =
      [List.replicate 16 2, List.replicate 16 4, List.replicate 16 6] ∧
    referenceVec (feedAll 3 []
        [List.replicate 16 1, List.replicate 16 2, List.replicate 16 4, List.replicate 16 6]) =
      referenceVec [List.replicate 16 2, List.replicate 16 4, List.replicate 16 6] := by
  have h := calibration_reference_last_cap 3
    [List.replicate 16 1, List.replicate 16 2, List.replicate 16 4, List.replicate 16 6]
    (by decide) (by decide)
  simpa using h

/-- Claim C3: from any defined mode, a transition request outside the keys
of `STATE_LIST` reports failure and resets the mode to 0 (calibration),
regardless of the prior mode. -/
theorem invalid_transition_resets (s t : ℤ)
    (hs : s ∈ STATE_LIST.map Prod.fst) (ht : t ∉ STATE_LIST.map Prod.fst) :
    (change___statecallback s t).1.success = false ∧
    (change___statecallback s t).2 = 0 := by
  have hne : t ≠ s := fun hts => ht (hts ▸ hs)
  simp [change___statecallback, hne, ht]

/-- Claim C3 witness: from recording mode (1), requesting state 50 fails
and resets the mode to calibration (0). -/
theorem invalid_transition_witness :
    (change___statecallback 1 50).1.success = false ∧
    (change___statecallback 1 50).2 = 0 :=
  invalid_transition_resets 1 50 (by decide) (by decide)

/-- Claim C4: a recording cycle with a non-full calibration queue raises
the fatal precondition error and publishes nothing. -/
theorem premature_recording_fatal (cap : ℕ) (q : List (List ℕ)) (data : List ℕ)
    (h : q.length < cap) :
    (timer_callback cap 1 q data).1 =
      CycleResult.fatalError ("Calibration queue is not filled.") ∧
    ∀ out, (timer_callback cap 1 q data).1 ≠ CycleResult.published out := by
  have hne : q.length ≠ cap := Nat.ne_of_lt h
  constructor
  · simp [timer_callback, hne]
  · intro out
    simp [timer_callback, hne]

/-- Claim C4 witness: with the default capacity 30 and an empty queue, a
recording cycle raises the fatal error and publishes nothing. -/
theorem premature_recording_witness :
    (timer_callback 30 1 [] []).1 =
      CycleResult.fatalError ("Calibration queue is not filled.") ∧
    (timer_callback 30 1 [] []).1 ≠ CycleResult.published [] :=
  ⟨(premature_recording_fatal 30 [] [] (by norm_num)).1,
   (premature_recording_fatal 30 [] [] (by norm_num)).2 []⟩

/-- Claim C5: a transition request equal to the current mode succeeds and
leaves the mode unchanged, for every current mode. -/
theorem transition_to_current_noop (s : ℤ) :
    (change___statecallback s s).1.success = true ∧
    (change___statecallback s s).2 = s := by
  simp [change___statecallback]

/-- Claim C6: every delta element `≤ 3` is zeroed by the floor rule before
the global suppression step; for reference `[0] * 16` and raw `[2] * 16`
the published output is `[0] * 16`. -/
theorem floor_rule_thm (d : List ℤ) (i : ℕ) (hi : i < d.length)
    (hle : d.getD i 0 ≤ 3) :
    (floorRule d).getD i 0 = 0 ∧
    processSignal (List.replicate 16 2) (List.replicate 16 (0 : ℚ)) =
      List.replicate 16 0 := by
  constructor
  · rw [floorRule_getD, if_pos hle]
  · have h := processSignal_replicate 2 0
    norm_num at h
    exact h

/-- Claim C6 witness: on the vector `[2] * 16` the floor rule zeroes
element 0, and the pipeline publishes `[0] * 16`. -/
theorem floor_rule_witness :
    (floorRule (List.replicate 16 2)).getD 0 0 = 0 ∧
    processSignal (List.replicate 16 2) (List.replicate 16 (0 : ℚ)) =
      List.replicate 16 0 :=
  floor_rule_thm (List.replicate 16 2) 0 (by norm_num) (by decide)

/-- Claim C7 counterexample: a 3-byte payload decodes to 2 values, not
`floor(3/2) = 1`; the trailing byte `7` is decoded as its own value
rather than silently dropped. -/
theorem decode_trailing_counterexample :
    decodeValues [0, 5, 7] = [5, 7] ∧ (decodeValues [0, 5, 7]).length ≠ 3 / 2 := by
  decide

/-- Claim C7 (amended): consecutive 2-byte chunks decode as big-endian
16-bit values, and the trailing byte of an odd-length payload is decoded
as its own single-byte value, so `n` bytes always decode to `ceil(n/2)`
values. -/
theorem decode_ceil_and_keeps_trailing (data : List ℕ) :
    (decodeValues data).length = (data.length + 1) / 2 ∧
    ∀ b : ℕ, data.length % 2 = 0 →
      decodeValues (data ++ [b]) = decodeValues data ++ [b] :=
  ⟨decodeValues_length data, fun b h => decodeValues_append_even data h b⟩

/-- Claim C7 witness: the even-length payload `[0, 5]` decodes to one
value, and appending the byte `7` appends the decoded value `7`. -/
theorem decode_ceil_witness :
    (decodeValues [0, 5]).length = ([0, 5].length + 1) / 2 ∧
    decodeValues ([0, 5] ++ [7]) = decodeValues [0, 5] ++ [7] :=
  ⟨(decode_ceil_and_keeps_trailing [0, 5]).1,
   (decode_ceil_and_keeps_trailing [0, 5]).2 7 (by decide)⟩

/-- Claim C8 counterexample: with reference `5/3` on every element
(e.g. from the calibration window `[[1]*16, [2]*16, [2]*16]`) and raw
`[10] * 16`, the code computes delta `10 - trunc(5/3) = 9`, while the
round-to-nearest rule of the claim gives `10 - round(5/3) = 8`. -/
theorem delta_round_counterexample :
    computeDelta (List.replicate 16 10) (List.replicate 16 (5 / 3 : ℚ)) =
      List.replicate 16 9 ∧
    computeDeltaRounded (List.replicate 16 10) (List.replicate 16 (5 / 3 : ℚ)) =
      List.replicate 16 8 ∧
    computeDelta (List.replicate 16 10) (List.replicate 16 (5 / 3 : ℚ)) ≠
      computeDeltaRounded (List.replicate 16 10) (List.replicate 16 (5 / 3 : ℚ)) := by
  have htr : truncQ (5 / 3 : ℚ) = 1 := by
    rw [truncQ_eq, if_pos (by norm_num), Int.floor_eq_iff]
    norm_num
  have hrd : round (5 / 3 : ℚ) = 2 := by
    rw [round_eq, Int.floor_eq_iff]
    norm_num
  have h1 : computeDelta (List.replicate 16 10) (List.replicate 16 (5 / 3 : ℚ)) =
      List.replicate 16 9 := by
    simp only [computeDelta, List.zip_replicate', List.map_replicate, htr]
    norm_num
  have h2 : computeDeltaRounded (List.replicate 16 10) (List.replicate 16 (5 / 3 : ℚ)) =
      List.replicate 16 8 := by
    simp only [computeDeltaRounded, List.zip_replicate', List.map_replicate, hrd]
    norm_num
  refine ⟨h1, h2, ?_⟩
  rw [h1, h2]
  decide

/-- Claim C8 (amended): the delta is `raw[i]` minus the reference element
truncated toward zero; since the reference vector is an element-wise mean
of unsigned samples it is non-negative, so the truncation is the floor of
the reference, not round-to-nearest. -/
theorem delta_truncates_reference (raw : List ℕ) (q : List (List ℕ)) :
    computeDelta raw (referenceVec q) =
      (raw.zip (referenceVec q)).map (fun p => (p.1 : ℤ) - ⌊p.2⌋) := by
  unfold computeDelta
  refine List.map_congr_left ?_
  intro p hp
  have hmem : p.2 ∈ referenceVec q := (List.of_mem_zip hp).2
  have hpos : 0 ≤ p.2 := by
    rcases List.mem_map.mp hmem with ⟨i, _, hi⟩
    rw [← hi]
    refine div_nonneg ?_ (Nat.cast_nonneg _)
    refine List.sum_nonneg ?_
    intro x hx
    rcases List.mem_map.mp hx with ⟨s, _, hs⟩
    rw [← hs]
    exact Nat.cast_nonneg _
  rw [truncQ_eq, if_pos hpos]

/-- Claim C9: every element of a data vector published by a recording
cycle is either 0 or at least 4: the floor rule zeroes everything at most
3 (negatives included) and the suppression rule can only zero elements. -/
theorem published_elements_zero_or_ge_four (cap : ℕ) (q : List (List ℕ))
    (data : List ℕ) (out : List ℤ)
    (h : (timer_callback cap 1 q data).1 = CycleResult.published out) :
    ∀ x ∈ out, x = 0 ∨ 4 ≤ x := by
  by_cases hq : q.length = cap
  · have hout : processSignal (decodeValues data) (referenceVec q) = out := by
      simpa [timer_callback, hq] using h
    intro x hx
    exact processSignal_mem (decodeValues data) (referenceVec q) x (hout ▸ hx)
  · simp [timer_callback, hq] at h

/-- Claim C9 witness: the concrete recording cycle publishing `[5] * 16`
has every element 0 or at least 4. -/
theorem published_elements_witness :
    (timer_callback 3 1 (List.replicate 3 (List.replicate 16 0))
        ((List.replicate 16 [0, 5]).flatten)).1 =
      CycleResult.published (List.replicate 16 5) ∧
    ((5 : ℤ) = 0 ∨ 4 ≤ (5 : ℤ)) :=
  ⟨timer_publishes_five,
   published_elements_zero_or_ge_four 3 (List.replicate 3 (List.replicate 16 0))
     ((List.replicate 16 [0, 5]).flatten) (List.replicate 16 5)
     timer_publishes_five 5 (by simp)⟩

/-- Claim C10: starting from the initial mode 0, after any sequence of
transition requests with arbitrary integer targets the stored mode is one
of the keys {0, 1, 99} of `STATE_LIST`. -/
theorem mode_always_defined (l : List ℤ) :
    runTransitions l ∈ STATE_LIST.map Prod.fst := by
  suffices h : ∀ s, s ∈ STATE_LIST.map Prod.fst →
      l.foldl (fun s t => (change___statecallback s t).2) s ∈ STATE_LIST.map Prod.fst from
    h 0 (by decide)
  induction l with
  | nil =>
    intro s hs
    simpa using hs
  | cons t ts ih =>
    intro s hs
    simp only [List.foldl_cons]
    exact ih _ (change_state_closed s t hs)
